import Mathlib

/-!
Verification of the kubeadm init action
(`src/pkg/cluster/internal/create/actions/kubeadminit/init.go`).

The action's `Execute` method is embedded as a pure function from an
environment (the external collaborators: the node list, the outcome of the
`kubeadm init` command, the per-copy outcomes, the taint-removal outcome) to
the ordered trace of externally visible events together with the returned
error.  External helpers that are not part of the source file
(`nodeutils.BootstrapControlPlaneNode`, `nodeutils.SecondaryControlPlaneNodes`,
`nodeutils.CopyNodeToNode`, the `Status` object) are modelled from the spec,
as marked on their doc comments.
-/

namespace KubeadmInit

/-- The role tag of a provisioned node (spec §3: control-plane / worker). -/
inductive Role where
  | controlPlane
  | worker
deriving DecidableEq, Repr

/-- A node handle: stable identity plus role tag (spec §3). -/
structure Node where
  name : String
  role : Role
deriving DecidableEq, Repr

/-- Go-style errors as produced on the paths of `Execute`:
raw external errors (`msg`), the selection failure, the propagator failure
(which retains destination node and path, spec §4.3), and `errors.Wrap`. -/
inductive GoError where
  | msg (s : String)
  | noControlPlaneNode
  | copyFailed (dst : Node) (file : String)
  | wrap (m : String) (cause : GoError)
deriving DecidableEq, Repr

/-- An externally visible event of one orchestration run, in trace order. -/
inductive Event where
  | statusStart (m : String)
  | statusEnd (success : Bool)
  | command (node : Node) (cname : String) (args : List String)
  | logInfo (verbosity : Nat) (m : String)
  | copy (src dst : Node) (file : String)
deriving DecidableEq, Repr

/-- Whether an event is a copy operation of the Artifact Propagator. -/
def Event.isCopy : Event → Bool
  | .copy _ _ _ => true
  | _ => false

/-- Whether an event is the status exit notification. -/
def Event.isStatusEnd : Event → Bool
  | .statusEnd _ => true
  | _ => false

/-- The environment of one run: everything the external collaborators decide.
`nodes` is `ctx.Nodes()`; `initLines`/`initErr` are the combined output lines
and outcome of the `kubeadm init` command; `copyFail` tells whether copying a
given file to a given destination node fails; `taintErr` is the outcome of the
`kubectl taint` command. -/
structure Env where
  nodes : Except String (List Node)
  initLines : List String
  initErr : Option String
  copyFail : Node → String → Bool
  taintErr : Option String

/-- Modelled from the spec: `nodeutils.BootstrapControlPlaneNode` is not under
`src/` (only its caller is).  Spec §4.1: selection is deterministic — a fixed
designated node, the first control-plane node by the NodeSet's stable order —
and the absence of any control-plane node is the `NoControlPlaneNode` error. -/
def BootstrapControlPlaneNode (nodes : List Node) : Except GoError Node :=
  match nodes.filter (fun n => n.role == Role.controlPlane) with
  | [] => .error .noControlPlaneNode
  | n :: _ => .ok n

/-- Modelled from the spec: `nodeutils.SecondaryControlPlaneNodes` is not under
`src/`.  Spec §4.1/§8: secondaries = control-plane nodes minus the bootstrap
node, in the NodeSet's stable order. -/
def SecondaryControlPlaneNodes (nodes : List Node) : Except GoError (List Node) :=
  match nodes.filter (fun n => n.role == Role.controlPlane) with
  | [] => .error .noControlPlaneNode
  | _ :: rest => .ok rest

/-- Modelled from the spec: `nodeutils.CopyNodeToNode` is not under `src/`.
Spec §4.3: on failure the propagator's `CopyFailed` error retains which node
and which path failed; success/failure itself is decided by the environment. -/
def CopyNodeToNode (env : Env) (dst : Node) (file : String) : Option GoError :=
  if env.copyFail dst file then some (.copyFailed dst file) else none

/-- The fixed ordered artifact file list of `init.go` lines 84-94. -/
def artifactFiles : List String :=
  [ "/etc/kubernetes/admin.conf",
    "/etc/kubernetes/pki/ca.crt", "/etc/kubernetes/pki/ca.key",
    "/etc/kubernetes/pki/front-proxy-ca.crt", "/etc/kubernetes/pki/front-proxy-ca.key",
    "/etc/kubernetes/pki/sa.pub", "/etc/kubernetes/pki/sa.key",
    "/etc/kubernetes/pki/etcd/ca.crt", "/etc/kubernetes/pki/etcd/ca.key" ]

/-- The fixed argument list of the `kubeadm` init command (`init.go` lines 60-71). -/
def kubeadmInitArgs : List String :=
  [ "init", "--skip-phases=preflight", "--config=/kind/kubeadm.conf",
    "--skip-token-print", "--v=6" ]

/-- The fixed argument list of the `kubectl` taint command (`init.go` lines 104-107). -/
def taintArgs : List String :=
  [ "--kubeconfig=/etc/kubernetes/admin.conf", "taint", "nodes", "--all",
    "node-role.kubernetes.io/master-" ]

/-- The status start message of `init.go` line 43. -/
def startMessage : String := "Starting control-plane 🕹️"

/-- The inner file loop of `init.go` lines 84-98: copy each artifact file to
one secondary node, returning first-failure-wrapped error and the attempted
copy events in order. -/
def copyFilesTo (env : Env) (node otherNode : Node) : List String → List Event × Option GoError
  | [] => ([], none)
  | file :: rest =>
    match CopyNodeToNode env otherNode file with
    | some e => ([Event.copy node otherNode file],
        some (.wrap "failed to copy admin kubeconfig" e))
    | none =>
      let r := copyFilesTo env node otherNode rest
      (Event.copy node otherNode file :: r.1, r.2)

/-- The outer node loop of `init.go` lines 83-99: for each secondary
control-plane node, copy the artifact files, aborting on the first failure. -/
def copyToSecondaries (env : Env) (node : Node) : List Node → List Event × Option GoError
  | [] => ([], none)
  | otherNode :: rest =>
    let r := copyFilesTo env node otherNode artifactFiles
    match r.2 with
    | some e => (r.1, some e)
    | none =>
      let r2 := copyToSecondaries env node rest
      (r.1 ++ r2.1, r2.2)

/-- The two events of running the init command: issuing it on the bootstrap
node (`init.go` lines 60-72) and logging its combined output (line 73). -/
def initEvents (node : Node) (lines : List String) : List Event :=
  [Event.command node "kubeadm" kubeadmInitArgs,
   Event.logInfo 3 (String.intercalate "\n" lines)]

/-- The body of `Execute` (`init.go` lines 46-114), between the status
enter/exit notifications: events in order, the success flag passed to the
exit notification, and the returned error. -/
def ExecuteBody (env : Env) : List Event × Bool × Option GoError :=
  match env.nodes with
  | .error e => ([], false, some (.msg e))
  | .ok allNodes =>
    match BootstrapControlPlaneNode allNodes with
    | .error e => ([], false, some e)
    | .ok node =>
      match env.initErr with
      | some e => (initEvents node env.initLines, false,
          some (.wrap "failed to init node with kubeadm" (.msg e)))
      | none =>
        match SecondaryControlPlaneNodes allNodes with
        | .error e => (initEvents node env.initLines, false, some e)
        | .ok otherControlPlanes =>
          match (copyToSecondaries env node otherControlPlanes).2 with
          | some e => (initEvents node env.initLines
              ++ (copyToSecondaries env node otherControlPlanes).1, false, some e)
          | none =>
            if allNodes.length = 1 then
              match env.taintErr with
              | some e => (initEvents node env.initLines
                  ++ (copyToSecondaries env node otherControlPlanes).1
                  ++ [Event.command node "kubectl" taintArgs],
                  false, some (.wrap "failed to remove master taint" (.msg e)))
              | none => (initEvents node env.initLines
                  ++ (copyToSecondaries env node otherControlPlanes).1
                  ++ [Event.command node "kubectl" taintArgs],
                  true, none)
            else
              (initEvents node env.initLines
                ++ (copyToSecondaries env node otherControlPlanes).1, true, none)

/-- `Execute` (`init.go` lines 42-115).  The surrounding `Status` object is not
under `src/`; modelled from the spec (§9): scoped enter/exit notifications,
the exit invoked exactly once, `end(false)` by default unless overwritten by
`end(true)` on the success path — hence a single `statusEnd` event carrying
the success flag of the taken path. -/
def Execute (env : Env) : List Event × Option GoError :=
  let r := ExecuteBody env
  (Event.statusStart startMessage :: r.1 ++ [Event.statusEnd r.2.1], r.2.2)

/-- The copy events of a trace, in order. -/
def copyEvents (evs : List Event) : List Event := evs.filter Event.isCopy

/-- The full cross-product plan of the nested loop: for each secondary in
order, each artifact file in order. -/
def copyPlan (secs : List Node) : List (Node × String) :=
  secs.flatMap fun s => artifactFiles.map fun f => (s, f)

/-- The nested copy loop re-expressed as one linear scan of the plan. -/
def runPlan (env : Env) (b : Node) : List (Node × String) → List Event × Option GoError
  | [] => ([], none)
  | p :: rest =>
    if env.copyFail p.1 p.2 then
      ([Event.copy b p.1 p.2],
        some (.wrap "failed to copy admin kubeconfig" (.copyFailed p.1 p.2)))
    else
      let r := runPlan env b rest
      (Event.copy b p.1 p.2 :: r.1, r.2)

/-- Whether an event is the taint-removal command of `init.go` lines 104-107. -/
def Event.isTaintCmd : Event → Bool
  | .command _ cname args => cname == "kubectl" && args == taintArgs
  | _ => false

/-- A control-plane node named A, for concrete scenarios. -/
def nodeA : Node := ⟨"A", Role.controlPlane⟩

/-- A control-plane node named B, for concrete scenarios. -/
def nodeB : Node := ⟨"B", Role.controlPlane⟩

/-- A worker node named C, for concrete scenarios. -/
def nodeC : Node := ⟨"C", Role.worker⟩

/-- A control-plane node named D, for concrete scenarios. -/
def nodeD : Node := ⟨"D", Role.controlPlane⟩

/-- Scenario: two control-plane nodes and a worker, every operation succeeds. -/
def envAllOk : Env :=
  ⟨.ok [nodeA, nodeB, nodeC], ["output line"], none, fun _ _ => false, none⟩

/-- Scenario: a single control-plane node, every operation succeeds. -/
def envSingle : Env := ⟨.ok [nodeA], [], none, fun _ _ => false, none⟩

/-- Scenario: only a worker node, no control-plane node at all. -/
def envNoCP : Env := ⟨.ok [nodeC], [], none, fun _ _ => false, none⟩

/-- Scenario: the init command fails. -/
def envInitFail : Env :=
  ⟨.ok [nodeA, nodeB, nodeC], ["some failure output"], some "exit status 1",
    fun _ _ => false, none⟩

/-- Scenario: three control-plane nodes; copying `ca.key` to node B fails. -/
def envCopyFail : Env :=
  ⟨.ok [nodeA, nodeB, nodeD], [], none,
    fun n f => n == nodeB && f == "/etc/kubernetes/pki/ca.key", none⟩

lemma copyFilesTo_eq_runPlan (env : Env) (b s : Node) (fs : List String) :
    copyFilesTo env b s fs = runPlan env b (fs.map fun f => (s, f)) := by
  induction fs with
  | nil => rfl
  | cons f fs ih =>
    cases h : env.copyFail s f <;>
      simp [copyFilesTo, runPlan, CopyNodeToNode, h, ih]

lemma runPlan_append (env : Env) (b : Node) (l1 l2 : List (Node × String)) :
    runPlan env b (l1 ++ l2) =
      match (runPlan env b l1).2 with
      | some e => ((runPlan env b l1).1, some e)
      | none => ((runPlan env b l1).1 ++ (runPlan env b l2).1, (runPlan env b l2).2) := by
  induction l1 with
  | nil => simp [runPlan]
  | cons p rest ih =>
    cases h : env.copyFail p.1 p.2
    · cases hr : (runPlan env b rest).2 with
      | none => simp [runPlan, h, ih, hr]
      | some e => simp [runPlan, h, ih, hr]
    · simp [runPlan, h]

lemma copyToSecondaries_eq_runPlan (env : Env) (b : Node) (secs : List Node) :
    copyToSecondaries env b secs = runPlan env b (copyPlan secs) := by
  induction secs with
  | nil => rfl
  | cons s rest ih =>
    have hplan : copyPlan (s :: rest)
        = (artifactFiles.map fun f => (s, f)) ++ copyPlan rest := by
      simp [copyPlan]
    rw [hplan, runPlan_append]
    simp only [copyToSecondaries, copyFilesTo_eq_runPlan, ih]

lemma runPlan_success (env : Env) (b : Node) (l : List (Node × String))
    (h : (runPlan env b l).2 = none) :
    (runPlan env b l).1 = l.map fun p => Event.copy b p.1 p.2 := by
  induction l with
  | nil => rfl
  | cons p rest ih =>
    cases hc : env.copyFail p.1 p.2
    · simp only [runPlan, hc, if_false] at h ⊢
      simp [ih h]
    · simp [runPlan, hc] at h

lemma runPlan_firstFail (env : Env) (b : Node) (s : Node) (f : String)
    (rest : List (Node × String)) (done : List (Node × String))
    (h1 : ∀ p ∈ done, env.copyFail p.1 p.2 = false)
    (h2 : env.copyFail s f = true) :
    runPlan env b (done ++ (s, f) :: rest) =
      ((done ++ [(s, f)]).map fun p => Event.copy b p.1 p.2,
        some (.wrap "failed to copy admin kubeconfig" (.copyFailed s f))) := by
  induction done with
  | nil => simp [runPlan, h2]
  | cons q qs ih =>
    have hq : env.copyFail q.1 q.2 = false := h1 q (List.mem_cons_self q qs)
    have ih2 := ih fun p hp => h1 p (List.mem_cons_of_mem q hp)
    simp [runPlan, hq, ih2]

lemma runPlan_all_isCopy (env : Env) (b : Node) (l : List (Node × String)) :
    ∀ e ∈ (runPlan env b l).1, e.isCopy = true := by
  induction l with
  | nil => simp [runPlan]
  | cons p rest ih =>
    cases hc : env.copyFail p.1 p.2 <;> simp only [runPlan, hc, if_true, if_false]
    · intro e he
      rcases List.mem_cons.mp he with h | h
      · simp [h, Event.isCopy]
      · exact ih e h
    · intro e he
      simp only [List.mem_singleton] at he
      simp [he, Event.isCopy]

lemma copyPlan_length (secs : List Node) : (copyPlan secs).length = secs.length * 9 := by
  induction secs with
  | nil => rfl
  | cons s rest ih =>
    have : copyPlan (s :: rest) = (artifactFiles.map fun f => (s, f)) ++ copyPlan rest := by
      simp [copyPlan]
    rw [this]
    simp only [List.length_append, List.length_map, List.length_cons, ih]
    have : artifactFiles.length = 9 := rfl
    rw [this]
    omega

lemma Event.isStatusEnd_false_of_isCopy (e : Event) (h : e.isCopy = true) :
    e.isStatusEnd = false := by
  cases e <;> simp_all [Event.isCopy, Event.isStatusEnd]

lemma ExecuteBody_flag (env : Env) :
    (ExecuteBody env).2.1 = ((ExecuteBody env).2.2).isNone := by
  unfold ExecuteBody
  repeat' split
  all_goals rfl

lemma runPlan_error (env : Env) (b : Node) (l : List (Node × String)) (e : GoError)
    (h : (runPlan env b l).2 = some e) :
    ∃ n f, e = .wrap "failed to copy admin kubeconfig" (.copyFailed n f)
      ∧ env.copyFail n f = true := by
  induction l with
  | nil => simp [runPlan] at h
  | cons p rest ih =>
    cases hc : env.copyFail p.1 p.2
    · simp only [runPlan, hc, Bool.false_eq_true, if_false] at h
      exact ih h
    · simp only [runPlan, hc, if_true] at h
      exact ⟨p.1, p.2, (Option.some.inj h).symm, hc⟩

lemma copyToSecondaries_all_isCopy (env : Env) (b : Node) (secs : List Node) :
    ∀ e ∈ (copyToSecondaries env b secs).1, e.isCopy = true := by
  rw [copyToSecondaries_eq_runPlan]
  exact runPlan_all_isCopy env b _

lemma copyToSecondaries_error (env : Env) (b : Node) (secs : List Node) (e : GoError)
    (h : (copyToSecondaries env b secs).2 = some e) :
    ∃ n f, e = .wrap "failed to copy admin kubeconfig" (.copyFailed n f)
      ∧ env.copyFail n f = true := by
  rw [copyToSecondaries_eq_runPlan] at h
  exact runPlan_error env b _ e h

/-- Structural shape of the body trace: either empty (aborted before the init
command), or the init command on the bootstrap node followed by the output
log, followed by a tail consisting only of copy events and possibly the taint
command, the latter only when the node count is one. -/
lemma ExecuteBody_shape (env : Env) :
    (ExecuteBody env).1 = [] ∨
    ∃ nodes b tail, env.nodes = .ok nodes ∧ BootstrapControlPlaneNode nodes = .ok b ∧
      (ExecuteBody env).1
        = Event.command b "kubeadm" kubeadmInitArgs
          :: Event.logInfo 3 (String.intercalate "\n" env.initLines) :: tail ∧
      (∀ e ∈ tail, e.isCopy = true ∨ e = Event.command b "kubectl" taintArgs) ∧
      (Event.command b "kubectl" taintArgs ∈ tail → nodes.length = 1) := by
  rcases hn : env.nodes with e | allNodes
  · left; simp [ExecuteBody, hn]
  rcases hb : BootstrapControlPlaneNode allNodes with e | node
  · left; simp [ExecuteBody, hn, hb]
  right
  rcases hi : env.initErr with _ | e
  case some =>
    exact ⟨allNodes, node, [], rfl, hb, by simp [ExecuteBody, hn, hb, hi, initEvents],
      by simp, by simp⟩
  rcases hs : SecondaryControlPlaneNodes allNodes with e | others
  · exact ⟨allNodes, node, [], rfl, hb, by simp [ExecuteBody, hn, hb, hi, hs, initEvents],
      by simp, by simp⟩
  rcases hc : (copyToSecondaries env node others).2 with _ | e
  case some =>
    refine ⟨allNodes, node, (copyToSecondaries env node others).1, rfl, hb,
      by simp [ExecuteBody, hn, hb, hi, hs, hc, initEvents], ?_, ?_⟩
    · intro ev hev
      exact Or.inl (copyToSecondaries_all_isCopy env node others ev hev)
    · intro hmem
      have := copyToSecondaries_all_isCopy env node others _ hmem
      simp [Event.isCopy] at this
  by_cases hl : allNodes.length = 1
  · have htail : (ExecuteBody env).1
        = Event.command node "kubeadm" kubeadmInitArgs
          :: Event.logInfo 3 (String.intercalate "\n" env.initLines)
          :: ((copyToSecondaries env node others).1
              ++ [Event.command node "kubectl" taintArgs]) := by
      rcases ht : env.taintErr with _ | e <;>
        simp [ExecuteBody, hn, hb, hi, hs, hc, hl, ht, initEvents]
    refine ⟨allNodes, node, _, rfl, hb, htail, ?_, fun _ => hl⟩
    intro ev hev
    rcases List.mem_append.mp hev with h | h
    · exact Or.inl (copyToSecondaries_all_isCopy env node others ev h)
    · simp only [List.mem_singleton] at h
      exact Or.inr h
  · refine ⟨allNodes, node, (copyToSecondaries env node others).1, rfl, hb,
      by simp [ExecuteBody, hn, hb, hi, hs, hc, hl, initEvents], ?_, ?_⟩
    · intro ev hev
      exact Or.inl (copyToSecondaries_all_isCopy env node others ev hev)
    · intro hmem
      have := copyToSecondaries_all_isCopy env node others _ hmem
      simp [Event.isCopy] at this

lemma Execute_fst (env : Env) :
    (Execute env).1 = Event.statusStart startMessage
      :: (ExecuteBody env).1 ++ [Event.statusEnd (ExecuteBody env).2.1] := rfl

lemma Execute_snd (env : Env) : (Execute env).2 = (ExecuteBody env).2.2 := rfl

lemma filter_isCopy_copyList (b : Node) (l : List (Node × String)) :
    (l.map fun p => Event.copy b p.1 p.2).filter Event.isCopy
      = l.map fun p => Event.copy b p.1 p.2 := by
  refine List.filter_eq_self.mpr ?_
  intro a ha
  obtain ⟨p, _, rfl⟩ := List.mem_map.mp ha
  rfl

lemma copyPlan_map (b : Node) (secs : List Node) :
    (copyPlan secs).map (fun p => Event.copy b p.1 p.2)
      = secs.flatMap fun s => artifactFiles.map fun f => Event.copy b s f := by
  induction secs with
  | nil => rfl
  | cons s rest ih =>
    have : copyPlan (s :: rest) = (artifactFiles.map fun f => (s, f)) ++ copyPlan rest := by
      simp [copyPlan]
    rw [this]
    simp only [List.map_append, List.map_map, ih, List.flatMap_cons]
    rfl

lemma Event.isTaintCmd_false_of_isCopy (e : Event) (h : e.isCopy = true) :
    e.isTaintCmd = false := by
  cases e <;> simp_all [Event.isCopy, Event.isTaintCmd]

/-- Whenever a bootstrap node exists, the body trace starts with the init
command and the output log, regardless of everything else. -/
lemma ExecuteBody_events_cons (env : Env) (nodes : List Node) (b : Node)
    (h1 : env.nodes = .ok nodes) (h2 : BootstrapControlPlaneNode nodes = .ok b) :
    ∃ tail, (ExecuteBody env).1
      = Event.command b "kubeadm" kubeadmInitArgs
        :: Event.logInfo 3 (String.intercalate "\n" env.initLines) :: tail := by
  cases hi : env.initErr with
  | some e => exact ⟨[], by simp [ExecuteBody, h1, h2, hi, initEvents]⟩
  | none =>
    cases hs : SecondaryControlPlaneNodes nodes with
    | error e => exact ⟨[], by simp [ExecuteBody, h1, h2, hi, hs, initEvents]⟩
    | ok secs =>
      cases hc : (copyToSecondaries env b secs).2 with
      | some e => exact ⟨(copyToSecondaries env b secs).1,
          by simp [ExecuteBody, h1, h2, hi, hs, hc, initEvents]⟩
      | none =>
        by_cases hl : nodes.length = 1
        · cases ht : env.taintErr with
          | some e => exact ⟨(copyToSecondaries env b secs).1
                ++ [Event.command b "kubectl" taintArgs],
              by simp [ExecuteBody, h1, h2, hi, hs, hc, hl, ht, initEvents]⟩
          | none => exact ⟨(copyToSecondaries env b secs).1
                ++ [Event.command b "kubectl" taintArgs],
              by simp [ExecuteBody, h1, h2, hi, hs, hc, hl, ht, initEvents]⟩
        · exact ⟨(copyToSecondaries env b secs).1,
            by simp [ExecuteBody, h1, h2, hi, hs, hc, hl, initEvents]⟩

lemma BootstrapControlPlaneNode_error (nodes : List Node) (e : GoError)
    (h : BootstrapControlPlaneNode nodes = .error e) : e = .noControlPlaneNode := by
  unfold BootstrapControlPlaneNode at h
  cases hf : nodes.filter (fun n => n.role == Role.controlPlane) with
  | nil => rw [hf] at h; exact (Except.error.inj h).symm
  | cons x rest => rw [hf] at h; cases h

lemma SecondaryControlPlaneNodes_error (nodes : List Node) (e : GoError)
    (h : SecondaryControlPlaneNodes nodes = .error e) : e = .noControlPlaneNode := by
  unfold SecondaryControlPlaneNodes at h
  cases hf : nodes.filter (fun n => n.role == Role.controlPlane) with
  | nil => rw [hf] at h; exact (Except.error.inj h).symm
  | cons x rest => rw [hf] at h; cases h

/-- Claim C3: with zero control-plane nodes, the orchestration fails with the
`NoControlPlaneNode` error and no command, copy, or taint event occurs — the
trace is exactly the status enter/exit notifications. -/
theorem noControlPlane_noCommands (env : Env) (nodes : List Node)
    (h1 : env.nodes = .ok nodes)
    (h2 : nodes.filter (fun n => n.role == Role.controlPlane) = []) :
    (Execute env).2 = some GoError.noControlPlaneNode
    ∧ (Execute env).1 = [Event.statusStart startMessage, Event.statusEnd false] := by
  have hb : BootstrapControlPlaneNode nodes = .error .noControlPlaneNode := by
    simp [BootstrapControlPlaneNode, h2]
  exact ⟨by rw [Execute_snd]; simp [ExecuteBody, h1, hb],
    by rw [Execute_fst]; simp [ExecuteBody, h1, hb]⟩

/-- Claim C3 witness: concrete NodeSet with only a worker node. -/
theorem noControlPlane_noCommands_witness :
    (Execute envNoCP).2 = some GoError.noControlPlaneNode
    ∧ (Execute envNoCP).1 = [Event.statusStart startMessage, Event.statusEnd false] :=
  noControlPlane_noCommands envNoCP [nodeC] rfl rfl

/-- Claim C4: if the init command fails, the orchestration returns the
`InitFailed` wrapping of the runner's error and zero copy operations occur. -/
theorem initFailure_no_copies (env : Env) (nodes : List Node) (b : Node) (e : String)
    (h1 : env.nodes = .ok nodes)
    (h2 : BootstrapControlPlaneNode nodes = .ok b)
    (h3 : env.initErr = some e) :
    (Execute env).2 = some (.wrap "failed to init node with kubeadm" (.msg e))
    ∧ copyEvents (Execute env).1 = [] := by
  constructor
  · rw [Execute_snd]; simp [ExecuteBody, h1, h2, h3]
  · rw [Execute_fst]
    simp [copyEvents, ExecuteBody, h1, h2, h3, initEvents, Event.isCopy]

/-- Claim C4 witness: concrete run where `kubeadm init` exits non-zero. -/
theorem initFailure_no_copies_witness :
    (Execute envInitFail).2
        = some (.wrap "failed to init node with kubeadm" (.msg "exit status 1"))
    ∧ copyEvents (Execute envInitFail).1 = [] :=
  initFailure_no_copies envInitFail [nodeA, nodeB, nodeC] nodeA "exit status 1" rfl rfl rfl

/-- Claim C8: with at least one control-plane node, selection yields exactly
one bootstrap node (the determined first control-plane node), the secondaries
are the control-plane nodes minus the bootstrap node, and re-running selection
on the same NodeSet yields the same bootstrap node. -/
theorem nodeSelection_deterministic (nodes : List Node)
    (h : nodes.filter (fun n => n.role == Role.controlPlane) ≠ []) :
    ∃ b, BootstrapControlPlaneNode nodes = .ok b
      ∧ (∀ b', BootstrapControlPlaneNode nodes = .ok b' → b' = b)
      ∧ SecondaryControlPlaneNodes nodes
          = .ok ((nodes.filter fun n => n.role == Role.controlPlane).erase b)
      ∧ (∀ ns : List Node, ns = nodes → BootstrapControlPlaneNode ns = .ok b) := by
  cases hf : nodes.filter (fun n => n.role == Role.controlPlane) with
  | nil => exact absurd hf h
  | cons x rest =>
    refine ⟨x, ?_, ?_, ?_, ?_⟩
    · simp [BootstrapControlPlaneNode, hf]
    · intro b' hb'
      simp [BootstrapControlPlaneNode, hf] at hb'
      exact hb'.symm
    · simp [SecondaryControlPlaneNodes, hf, List.erase_cons_head]
    · intro ns hns
      subst hns
      simp [BootstrapControlPlaneNode, hf]

/-- Claim C8 witness: concrete NodeSet {A cp, B cp, C worker}. -/
theorem nodeSelection_deterministic_witness :
    ∃ b, BootstrapControlPlaneNode [nodeA, nodeB, nodeC] = .ok b
      ∧ (∀ b', BootstrapControlPlaneNode [nodeA, nodeB, nodeC] = .ok b' → b' = b)
      ∧ SecondaryControlPlaneNodes [nodeA, nodeB, nodeC]
          = .ok (([nodeA, nodeB, nodeC].filter fun n => n.role == Role.controlPlane).erase b)
      ∧ (∀ ns : List Node, ns = [nodeA, nodeB, nodeC]
          → BootstrapControlPlaneNode ns = .ok b) :=
  nodeSelection_deterministic [nodeA, nodeB, nodeC] (by decide)

/-- Claim C9: whenever the init command was issued (a bootstrap node exists),
the combined output lines are logged at verbosity 3 immediately after the
command and before anything else — on success and on failure alike. -/
theorem initOutput_logged (env : Env) (nodes : List Node) (b : Node)
    (h1 : env.nodes = .ok nodes)
    (h2 : BootstrapControlPlaneNode nodes = .ok b) :
    ∃ rest, (Execute env).1
      = Event.statusStart startMessage
        :: Event.command b "kubeadm" kubeadmInitArgs
        :: Event.logInfo 3 (String.intercalate "\n" env.initLines) :: rest := by
  obtain ⟨tail, htail⟩ := ExecuteBody_events_cons env nodes b h1 h2
  exact ⟨tail ++ [Event.statusEnd (ExecuteBody env).2.1],
    by rw [Execute_fst, htail]; simp⟩

/-- Claim C9 witness: the output log event is present even when init fails. -/
theorem initOutput_logged_witness :
    ∃ rest, (Execute envInitFail).1
      = Event.statusStart startMessage
        :: Event.command nodeA "kubeadm" kubeadmInitArgs
        :: Event.logInfo 3 (String.intercalate "\n" envInitFail.initLines) :: rest :=
  initOutput_logged envInitFail [nodeA, nodeB, nodeC] nodeA rfl rfl

/-- Claim C1 counterexample: in a fully successful run with exactly one
secondary control-plane node, 9 copy operations occur — not 1 × 8.  The fixed
artifact file list has nine entries (admin.conf plus four cert/key pairs),
not eight. -/
theorem copyCount_not_eight :
    (Execute envAllOk).2 = none
    ∧ SecondaryControlPlaneNodes [nodeA, nodeB, nodeC] = .ok [nodeB]
    ∧ (copyEvents (Execute envAllOk).1).length = 9
    ∧ (copyEvents (Execute envAllOk).1).length ≠ 1 * 8 :=
  ⟨rfl, rfl, rfl, by decide⟩

/-- Claim C1 (amended): if the orchestration succeeds with N secondary
control-plane nodes, exactly N × 9 copy operations occur (9 being the size of
the fixed artifact file list), in the fixed declared file order per secondary,
secondaries in order. -/
theorem copyCount_nine_in_order (env : Env) (nodes : List Node) (b : Node)
    (secs : List Node)
    (h1 : env.nodes = .ok nodes)
    (h2 : BootstrapControlPlaneNode nodes = .ok b)
    (h3 : SecondaryControlPlaneNodes nodes = .ok secs)
    (h4 : (Execute env).2 = none) :
    copyEvents (Execute env).1
        = (secs.flatMap fun s => artifactFiles.map fun f => Event.copy b s f)
    ∧ (copyEvents (Execute env).1).length = secs.length * 9 := by
  rw [Execute_snd] at h4
  cases hi : env.initErr with
  | some e => simp [ExecuteBody, h1, h2, hi] at h4
  | none =>
    cases hc : (copyToSecondaries env b secs).2 with
    | some e => simp [ExecuteBody, h1, h2, h3, hi, hc] at h4
    | none =>
      have hcp1 : (copyToSecondaries env b secs).1
          = (copyPlan secs).map fun p => Event.copy b p.1 p.2 := by
        rw [copyToSecondaries_eq_runPlan]
        exact runPlan_success env b (copyPlan secs)
          (by rw [← copyToSecondaries_eq_runPlan]; exact hc)
      have hmain : copyEvents (Execute env).1
          = (copyPlan secs).map fun p => Event.copy b p.1 p.2 := by
        rw [Execute_fst]
        by_cases hl : nodes.length = 1
        · cases ht : env.taintErr with
          | some e => simp [ExecuteBody, h1, h2, h3, hi, hc, hl, ht] at h4
          | none =>
            simp [copyEvents, ExecuteBody, h1, h2, h3, hi, hc, hl, ht, initEvents,
              List.filter_append, Event.isCopy, hcp1, filter_isCopy_copyList]
        · simp [copyEvents, ExecuteBody, h1, h2, h3, hi, hc, hl, initEvents,
            List.filter_append, Event.isCopy, hcp1, filter_isCopy_copyList]
      refine ⟨by rw [hmain, copyPlan_map], ?_⟩
      rw [hmain, List.length_map, copyPlan_length]

/-- Claim C1 (amended) witness: one secondary, all-success run, 1 × 9 copies. -/
theorem copyCount_nine_in_order_witness :
    copyEvents (Execute envAllOk).1
        = ([nodeB].flatMap fun s => artifactFiles.map fun f => Event.copy nodeA s f)
    ∧ (copyEvents (Execute envAllOk).1).length = ([nodeB] : List Node).length * 9 :=
  copyCount_nine_in_order envAllOk [nodeA, nodeB, nodeC] nodeA [nodeB] rfl rfl rfl rfl

/-- Claim C2: if the k-th planned copy operation is the first to fail, the
orchestration fails with the propagation error wrapping the `CopyFailed`
error that names the offending destination node and file path, and the
attempted copy operations are exactly the first k+1 planned ones — nothing
after the failing copy is attempted. -/
theorem propagation_failFast (env : Env) (nodes : List Node) (b : Node)
    (secs : List Node) (done : List (Node × String)) (s : Node) (f : String)
    (rest : List (Node × String))
    (h1 : env.nodes = .ok nodes)
    (h2 : BootstrapControlPlaneNode nodes = .ok b)
    (h3 : SecondaryControlPlaneNodes nodes = .ok secs)
    (h4 : env.initErr = none)
    (h5 : copyPlan secs = done ++ (s, f) :: rest)
    (h6 : ∀ p ∈ done, env.copyFail p.1 p.2 = false)
    (h7 : env.copyFail s f = true) :
    (Execute env).2
        = some (.wrap "failed to copy admin kubeconfig" (.copyFailed s f))
    ∧ copyEvents (Execute env).1
        = ((done ++ [(s, f)]).map fun p => Event.copy b p.1 p.2) := by
  have hcp : copyToSecondaries env b secs
      = ((done ++ [(s, f)]).map fun p => Event.copy b p.1 p.2,
        some (.wrap "failed to copy admin kubeconfig" (.copyFailed s f))) := by
    rw [copyToSecondaries_eq_runPlan, h5]
    exact runPlan_firstFail env b s f rest done h6 h7
  have hcp2 : (copyToSecondaries env b secs).2
      = some (.wrap "failed to copy admin kubeconfig" (.copyFailed s f)) := by
    rw [hcp]
  have hcp1 : (copyToSecondaries env b secs).1
      = ((done ++ [(s, f)]).map fun p => Event.copy b p.1 p.2) := by
    rw [hcp]
  constructor
  · rw [Execute_snd]
    simp [ExecuteBody, h1, h2, h3, h4, hcp2]
  · rw [Execute_fst]
    simp [copyEvents, ExecuteBody, h1, h2, h3, h4, hcp2, hcp1, initEvents,
      List.filter_append, Event.isCopy, filter_isCopy_copyList]

/-- Claim C2 witness: three control-plane nodes, the third copy (ca.key to
node B) fails; exactly the first three copies are attempted. -/
theorem propagation_failFast_witness :
    (Execute envCopyFail).2
        = some (.wrap "failed to copy admin kubeconfig"
            (.copyFailed nodeB "/etc/kubernetes/pki/ca.key"))
    ∧ copyEvents (Execute envCopyFail).1
        = (((copyPlan [nodeB, nodeD]).take 2
            ++ [(nodeB, "/etc/kubernetes/pki/ca.key")]).map
              fun p => Event.copy nodeA p.1 p.2) :=
  propagation_failFast envCopyFail [nodeA, nodeB, nodeD] nodeA [nodeB, nodeD]
    ((copyPlan [nodeB, nodeD]).take 2) nodeB "/etc/kubernetes/pki/ca.key"
    ((copyPlan [nodeB, nodeD]).drop 3) rfl rfl rfl rfl rfl (by decide) (by decide)

/-- Claim C10: whatever copy fails — any destination node, any file — the
orchestration error wraps it with the one fixed message
"failed to copy admin kubeconfig". -/
theorem copyFailure_fixed_message (env : Env) (m : String) (n : Node) (f : String)
    (h : (Execute env).2 = some (GoError.wrap m (GoError.copyFailed n f))) :
    m = "failed to copy admin kubeconfig" := by
  rw [Execute_snd] at h
  cases hn : env.nodes with
  | error e => simp [ExecuteBody, hn] at h
  | ok allNodes =>
    cases hb : BootstrapControlPlaneNode allNodes with
    | error e =>
      have he := BootstrapControlPlaneNode_error allNodes e hb
      subst he
      simp [ExecuteBody, hn, hb] at h
    | ok node =>
      cases hi : env.initErr with
      | some e => simp [ExecuteBody, hn, hb, hi] at h
      | none =>
        cases hs : SecondaryControlPlaneNodes allNodes with
        | error e =>
          have he := SecondaryControlPlaneNodes_error allNodes e hs
          subst he
          simp [ExecuteBody, hn, hb, hi, hs] at h
        | ok secs =>
          cases hc : (copyToSecondaries env node secs).2 with
          | some e =>
            obtain ⟨n', f', he, _⟩ := copyToSecondaries_error env node secs e hc
            subst he
            simp [ExecuteBody, hn, hb, hi, hs, hc] at h
            exact h.1.symm
          | none =>
            by_cases hl : allNodes.length = 1
            · cases ht : env.taintErr with
              | some e => simp [ExecuteBody, hn, hb, hi, hs, hc, hl, ht] at h
              | none => simp [ExecuteBody, hn, hb, hi, hs, hc, hl, ht] at h
            · simp [ExecuteBody, hn, hb, hi, hs, hc, hl] at h

/-- Claim C10 witness: the fixed message on a concrete ca.key copy failure. -/
theorem copyFailure_fixed_message_witness :
    "failed to copy admin kubeconfig" = "failed to copy admin kubeconfig" :=
  copyFailure_fixed_message envCopyFail "failed to copy admin kubeconfig" nodeB
    "/etc/kubernetes/pki/ca.key" (by decide)

lemma isTaintCmd_kubeadm (b : Node) :
    (Event.command b "kubeadm" kubeadmInitArgs).isTaintCmd = false := rfl

/-- Claim C5: the taint-removal command occurs in the trace only when the
total node count is 1 (never for 2 or more nodes, whatever the outcomes); and
with a single (control-plane) node and successful init it does occur. -/
theorem taint_iff_singleNode (env : Env) (nodes : List Node)
    (h1 : env.nodes = .ok nodes) :
    ((Execute env).1.any Event.isTaintCmd = true → nodes.length = 1)
    ∧ (nodes.length = 1 →
        nodes.filter (fun n => n.role == Role.controlPlane) ≠ [] →
        env.initErr = none →
        (Execute env).1.any Event.isTaintCmd = true) := by
  constructor
  · intro hany
    obtain ⟨ev, hmem, hev⟩ := List.any_eq_true.mp hany
    rw [Execute_fst] at hmem
    rcases List.mem_cons.mp hmem with rfl | hmem2
    · simp [Event.isTaintCmd] at hev
    rcases List.mem_append.mp hmem2 with hbody | hend
    swap
    · simp only [List.mem_singleton] at hend
      subst hend
      simp [Event.isTaintCmd] at hev
    rcases ExecuteBody_shape env with hempty | ⟨nodes', b, tail, hn', hb', hevs, htail, htaint⟩
    · rw [hempty] at hbody; cases hbody
    · have hnn : nodes' = nodes := by rw [h1] at hn'; exact (Except.ok.inj hn').symm
      subst hnn
      rw [hevs] at hbody
      rcases List.mem_cons.mp hbody with rfl | hbody2
      · rw [isTaintCmd_kubeadm] at hev; cases hev
      rcases List.mem_cons.mp hbody2 with rfl | hbody3
      · simp [Event.isTaintCmd] at hev
      rcases htail ev hbody3 with hcopy | rfl
      · rw [Event.isTaintCmd_false_of_isCopy ev hcopy] at hev; cases hev
      · exact htaint hbody3
  · intro hl hcp hi
    obtain ⟨x, rfl⟩ := List.length_eq_one.mp hl
    cases hx : x.role == Role.controlPlane with
    | false =>
      exact absurd (by simp [List.filter_cons, hx]) hcp
    | true =>
      have hB : BootstrapControlPlaneNode [x] = .ok x := by
        simp [BootstrapControlPlaneNode, List.filter_cons, hx]
      have hS : SecondaryControlPlaneNodes [x] = .ok [] := by
        simp [SecondaryControlPlaneNodes, List.filter_cons, hx]
      refine List.any_eq_true.mpr ⟨Event.command x "kubectl" taintArgs, ?_, rfl⟩
      rw [Execute_fst]
      cases ht : env.taintErr with
      | some e =>
        simp [ExecuteBody, h1, hB, hi, hS, copyToSecondaries, ht, initEvents]
      | none =>
        simp [ExecuteBody, h1, hB, hi, hS, copyToSecondaries, ht, initEvents]

/-- Claim C5 witness: a single control-plane node with successful init. -/
theorem taint_iff_singleNode_witness :
    ((Execute envSingle).1.any Event.isTaintCmd = true → ([nodeA] : List Node).length = 1)
    ∧ (([nodeA] : List Node).length = 1 →
        ([nodeA] : List Node).filter (fun n => n.role == Role.controlPlane) ≠ [] →
        envSingle.initErr = none →
        (Execute envSingle).1.any Event.isTaintCmd = true) :=
  taint_iff_singleNode envSingle [nodeA] rfl

/-- Claim C6: every init command in a trace carries exactly the fixed argument
set (skip preflight, the fixed config path, skip token print, verbosity 6)
and is issued on the selected bootstrap node, regardless of the NodeSet. -/
theorem initArgs_fixed (env : Env) (n : Node) (args : List String)
    (h : Event.command n "kubeadm" args ∈ (Execute env).1) :
    args = kubeadmInitArgs
    ∧ ∃ nodes, env.nodes = .ok nodes ∧ BootstrapControlPlaneNode nodes = .ok n := by
  rw [Execute_fst] at h
  rcases List.mem_cons.mp h with hstart | h2
  · simp at hstart
  rcases List.mem_append.mp h2 with hbody | hend
  swap
  · simp only [List.mem_singleton] at hend
    simp at hend
  rcases ExecuteBody_shape env with hempty | ⟨nodes, b, tail, hn, hb, hevs, htail, _⟩
  · rw [hempty] at hbody; cases hbody
  rw [hevs] at hbody
  rcases List.mem_cons.mp hbody with hcmd | hbody2
  · injection hcmd with e1 e2 e3
    subst e1
    exact ⟨e3, nodes, hn, hb⟩
  rcases List.mem_cons.mp hbody2 with hlog | hbody3
  · simp at hlog
  rcases htail _ hbody3 with hcopy | heq
  · simp [Event.isCopy] at hcopy
  · injection heq with e1 e2 e3
    exact absurd e2 (by decide)

/-- Claim C6 witness: the init command in a successful three-node run. -/
theorem initArgs_fixed_witness :
    kubeadmInitArgs = kubeadmInitArgs
    ∧ ∃ nodes, envAllOk.nodes = .ok nodes
        ∧ BootstrapControlPlaneNode nodes = .ok nodeA :=
  initArgs_fixed envAllOk nodeA kubeadmInitArgs (by decide)

/-- Claim C7: for every run, the status exit notification occurs exactly once
in the trace, carrying success exactly when the run returned no error —
`end(false)` is the default unless overwritten by `end(true)` on success. -/
theorem statusEnd_exactly_once (env : Env) :
    (Execute env).1.filter Event.isStatusEnd
      = [Event.statusEnd ((Execute env).2).isNone] := by
  have hflag := ExecuteBody_flag env
  have hbody : (ExecuteBody env).1.filter Event.isStatusEnd = [] := by
    rw [List.filter_eq_nil_iff]
    intro e he
    rcases ExecuteBody_shape env with hempty | ⟨nodes, b, tail, _, _, hevs, htail, _⟩
    · rw [hempty] at he; cases he
    · rw [hevs] at he
      rcases List.mem_cons.mp he with rfl | he2
      · simp [Event.isStatusEnd]
      rcases List.mem_cons.mp he2 with rfl | he3
      · simp [Event.isStatusEnd]
      rcases htail e he3 with hc | rfl
      · simp [Event.isStatusEnd_false_of_isCopy e hc]
      · simp [Event.isStatusEnd]
  rw [Execute_fst, Execute_snd, ← hflag]
  simp [List.filter_append, hbody, Event.isStatusEnd]

end KubeadmInit
